import Mathlib

/-!
Verification of the content-based recommendation engine
(`src/ml/recommender.py`, class `RecommenderEngine`).

Python strings are modelled as Lean `String`; Python's `str.strip` and
`sep.join` are modelled at the character-list level (`pyStrip`, `pyJoin`).
The sklearn TF-IDF transform and the cosine similarity are floating-point,
logarithm/square-root based computations; they are abstracted as function
parameters (`transform`, `cosineSim`), and every theorem about ranking or
explanation is proved for all possible values of those functions, which
subsumes the concrete numeric kernel.  `np.argsort`'s default quicksort is
documented unstable, so the ranking's argsort result is likewise treated as
underspecified: `IsArgsortDesc` characterizes its admissible outputs (any
permutation of the indices in non-increasing score order), and claims that
touch the tie order are settled against all of them.  (Python's `list.sort`,
by contrast, is documented stable, so the explanation's sort is modelled as
stable.)  The vocabulary-building part of
`TfidfVectorizer.fit` (tokenization, stop-word removal, `min_df`/`max_df`
pruning, `max_features` cap) is exact integer/rational computation and is
modelled faithfully.
-/

namespace EcommerceAI

attribute [local semireducible] Rat.mul Rat.add Rat.sub Rat.inv

/-- Python's whitespace test, as used by `str.strip()`. -/
def pyIsSpace (c : Char) : Bool :=
  c = ' ' || c = '\t' || c = '\n' || c = '\r' || c = '\x0b' || c = '\x0c'

/-- Characters of Python's `str.strip()`: drop whitespace from both ends. -/
def stripChars (l : List Char) : List Char :=
  ((l.dropWhile pyIsSpace).reverse.dropWhile pyIsSpace).reverse

/-- Python's `str.strip()`. -/
def pyStrip (s : String) : String :=
  ⟨stripChars s.data⟩

/-- Python's `sep.join(parts)`. -/
def pyJoin (sep : String) : List String → String
  | [] => ""
  | [s] => s
  | s :: t :: rest => s ++ sep ++ pyJoin sep (t :: rest)

/-- A user behavior event as consumed by `RecommenderEngine`: a dict with an
`action` key and (depending on the action) a `searchquery` or a
`productcontext` payload.  Absent keys are modelled as `""`. -/
structure Behavior where
  action : String
  searchquery : String := ""
  productcontext : String := ""
  deriving DecidableEq, Repr

/-- `RecommenderEngine.build_interest_profile` (src/ml/recommender.py:36-73):
search queries repeated 3x, clicked product contexts 2x, viewed product
contexts 1x, joined with single spaces and stripped. -/
def buildInterestProfile (behaviors : List Behavior) : String :=
  if behaviors = [] then ""
  else
    let searches := behaviors.filter (fun b => b.action == "search")
    let clicks := behaviors.filter (fun b => b.action == "click")
    let views := behaviors.filter (fun b => b.action == "view")
    let interestParts :=
      (searches.flatMap fun s => List.replicate 3 s.searchquery) ++
        ((clicks.flatMap fun c => List.replicate 2 c.productcontext) ++
          views.map fun v => v.productcontext)
    pyStrip (pyJoin " " interestParts)

/-- The list `interest_parts` built by `build_interest_profile`. -/
def interestParts (behaviors : List Behavior) : List String :=
  ((behaviors.filter (fun b => b.action == "search")).flatMap
      fun s => List.replicate 3 s.searchquery) ++
    (((behaviors.filter (fun b => b.action == "click")).flatMap
        fun c => List.replicate 2 c.productcontext) ++
      (behaviors.filter (fun b => b.action == "view")).map
        fun v => v.productcontext)

lemma buildInterestProfile_eq (behaviors : List Behavior) :
    buildInterestProfile behaviors = pyStrip (pyJoin " " (interestParts behaviors)) := by
  unfold buildInterestProfile interestParts
  split
  · rename_i h
    subst h
    rfl
  · rfl

lemma pyJoin_all_space {parts : List String} (h : ∀ p ∈ parts, p = "") :
    ∀ c ∈ (pyJoin " " parts).data, pyIsSpace c = true := by
  induction parts with
  | nil => intro c hc; simp [pyJoin] at hc
  | cons s rest ih =>
    cases rest with
    | nil =>
      intro c hc
      have hs : s = "" := h s (by simp)
      subst hs
      simp [pyJoin] at hc
    | cons t rest' =>
      intro c hc
      have hs : s = "" := h s (by simp)
      subst hs
      have hdata : (pyJoin " " ("" :: t :: rest')).data
          = ' ' :: (pyJoin " " (t :: rest')).data := by
        show (("" ++ " " ++ pyJoin " " (t :: rest')).data) = _
        simp [String.data_append]
      rw [hdata] at hc
      rcases List.mem_cons.1 hc with hc | hc
      · rw [hc]; rfl
      · exact ih (fun p hp => h p (by simp [hp])) c hc

lemma stripChars_all_space {l : List Char} (h : ∀ c ∈ l, pyIsSpace c = true) :
    stripChars l = [] := by
  unfold stripChars
  have h1 : l.dropWhile pyIsSpace = [] := List.dropWhile_eq_nil_iff.mpr h
  simp [h1]

lemma pyStrip_all_space {s : String} (h : ∀ c ∈ s.data, pyIsSpace c = true) :
    pyStrip s = "" := by
  unfold pyStrip
  rw [stripChars_all_space h]

lemma mem_interestParts_of_empty_payloads {behaviors : List Behavior}
    (h : ∀ b ∈ behaviors, b.searchquery = "" ∧ b.productcontext = "") :
    ∀ p ∈ interestParts behaviors, p = "" := by
  intro p hp
  unfold interestParts at hp
  rcases List.mem_append.1 hp with h1 | h23
  · obtain ⟨b, hb, hrep⟩ := List.mem_flatMap.1 h1
    rw [List.eq_of_mem_replicate hrep]
    exact (h b (List.mem_filter.1 hb).1).1
  · rcases List.mem_append.1 h23 with h2 | h3
    · obtain ⟨b, hb, hrep⟩ := List.mem_flatMap.1 h2
      rw [List.eq_of_mem_replicate hrep]
      exact (h b (List.mem_filter.1 hb).1).2
    · obtain ⟨b, hb, hpe⟩ := List.mem_map.1 h3
      rw [← hpe]
      exact (h b (List.mem_filter.1 hb).1).2

/-- C1: `build_interest_profile` returns the space-joined, stripped
concatenation of each search query repeated 3 times, then each clicked
product context repeated 2 times, then each viewed product context once,
in input order within each kind; it returns `""` when there are no events
or when every payload text is empty. -/
theorem c1_build_interest_profile (behaviors : List Behavior) :
    buildInterestProfile behaviors =
      pyStrip (pyJoin " "
        (((behaviors.filter (fun b => b.action == "search")).flatMap
            fun s => List.replicate 3 s.searchquery) ++
          (((behaviors.filter (fun b => b.action == "click")).flatMap
              fun c => List.replicate 2 c.productcontext) ++
            (behaviors.filter (fun b => b.action == "view")).map
              fun v => v.productcontext)))
      ∧ (behaviors = [] → buildInterestProfile behaviors = "")
      ∧ ((∀ b ∈ behaviors, b.searchquery = "" ∧ b.productcontext = "") →
          buildInterestProfile behaviors = "") := by
  refine ⟨buildInterestProfile_eq behaviors, ?_, ?_⟩
  · intro h; subst h; rfl
  · intro h
    rw [buildInterestProfile_eq]
    exact pyStrip_all_space (pyJoin_all_space (mem_interestParts_of_empty_payloads h))

/-- C1 witness: concrete evaluation of the empty-payload case. -/
theorem c1_build_interest_profile_witness :
    buildInterestProfile [⟨"search", "", ""⟩, ⟨"view", "", ""⟩] = "" :=
  (c1_build_interest_profile [⟨"search", "", ""⟩, ⟨"view", "", ""⟩]).2.2 (by decide)

/-- C6 counterexample: the profile text is NOT invariant under permuting two
events of the same kind — swapping two search events reorders their query
blocks inside the profile string. -/
theorem c6_counterexample :
    buildInterestProfile [⟨"search", "a", ""⟩, ⟨"search", "b", ""⟩] ≠
      buildInterestProfile [⟨"search", "b", ""⟩, ⟨"search", "a", ""⟩] := by
  decide

/-- C6 (amended): the profile text is invariant under reorderings of the event
sequence that preserve the relative order of events within each action kind
(equal `search`/`click`/`view` subsequences give equal profiles), and two
click events targeting the same text `t` produce exactly the same profile as
a single click event whose text is `t ++ " " ++ t`. -/
theorem c6_reorder_invariance_and_click_doubling :
    (∀ l₁ l₂ : List Behavior,
        l₁.filter (fun b => b.action == "search") = l₂.filter (fun b => b.action == "search") →
        l₁.filter (fun b => b.action == "click") = l₂.filter (fun b => b.action == "click") →
        l₁.filter (fun b => b.action == "view") = l₂.filter (fun b => b.action == "view") →
        buildInterestProfile l₁ = buildInterestProfile l₂)
    ∧ (∀ t : String,
        buildInterestProfile [⟨"click", "", t⟩, ⟨"click", "", t⟩] =
          buildInterestProfile [⟨"click", "", t ++ " " ++ t⟩]) := by
  constructor
  · intro l₁ l₂ h1 h2 h3
    rw [buildInterestProfile_eq, buildInterestProfile_eq]
    unfold interestParts
    rw [h1, h2, h3]
  · intro t
    rw [buildInterestProfile_eq, buildInterestProfile_eq]
    have e1 : interestParts [⟨"click", "", t⟩, ⟨"click", "", t⟩] = [t, t, t, t] := rfl
    have e2 : interestParts [⟨"click", "", t ++ " " ++ t⟩]
        = [t ++ " " ++ t, t ++ " " ++ t] := rfl
    rw [e1, e2]
    apply congrArg
    apply String.ext
    simp [pyJoin, String.data_append, List.append_assoc]

/-- C6 amended witness: a concrete cross-kind reordering and click doubling. -/
theorem c6_reorder_invariance_witness :
    buildInterestProfile [⟨"view", "", "v"⟩, ⟨"search", "q", ""⟩] =
      buildInterestProfile [⟨"search", "q", ""⟩, ⟨"view", "", "v"⟩] :=
  c6_reorder_invariance_and_click_doubling.1
    [⟨"view", "", "v"⟩, ⟨"search", "q", ""⟩]
    [⟨"search", "q", ""⟩, ⟨"view", "", "v"⟩] (by decide) (by decide) (by decide)

/-- C7: events whose action kind is not `search`, `click` or `view` contribute
no text to the profile (dropping them leaves the profile unchanged), and a
history consisting only of unrecognized kinds yields the empty profile. -/
theorem c7_unrecognized_actions_ignored (behaviors : List Behavior) :
    buildInterestProfile behaviors =
      buildInterestProfile (behaviors.filter
        (fun b => b.action == "search" || b.action == "click" || b.action == "view"))
    ∧ ((∀ b ∈ behaviors, b.action ≠ "search" ∧ b.action ≠ "click" ∧ b.action ≠ "view") →
        buildInterestProfile behaviors = "") := by
  have hfil : ∀ (p q : Behavior → Bool), (∀ b, p b = true → q b = true) →
      (behaviors.filter q).filter p = behaviors.filter p := by
    intro p q himp
    rw [List.filter_filter]
    apply List.filter_congr
    intro b _
    cases hp : p b with
    | true => simp [himp b hp]
    | false => simp
  constructor
  · rw [buildInterestProfile_eq, buildInterestProfile_eq]
    unfold interestParts
    rw [hfil _ _ (fun b hb => by simp [hb]),
      hfil _ _ (fun b hb => by simp [hb]),
      hfil _ _ (fun b hb => by simp [hb])]
  · intro h
    rw [buildInterestProfile_eq]
    have hs : behaviors.filter (fun b => b.action == "search") = [] := by
      rw [List.filter_eq_nil_iff]
      intro b hb
      simp only [beq_iff_eq]
      exact (h b hb).1
    have hc : behaviors.filter (fun b => b.action == "click") = [] := by
      rw [List.filter_eq_nil_iff]
      intro b hb
      simp only [beq_iff_eq]
      exact (h b hb).2.1
    have hv : behaviors.filter (fun b => b.action == "view") = [] := by
      rw [List.filter_eq_nil_iff]
      intro b hb
      simp only [beq_iff_eq]
      exact (h b hb).2.2
    unfold interestParts
    rw [hs, hc, hv]
    rfl

/-- C7 witness: a non-empty history of only `add_to_cart` events yields `""`. -/
theorem c7_unrecognized_actions_witness :
    buildInterestProfile [⟨"add_to_cart", "", "wireless headphones"⟩] = "" :=
  (c7_unrecognized_actions_ignored [⟨"add_to_cart", "", "wireless headphones"⟩]).2
    (by decide)

/-! ### The vectorizer: vocabulary construction and engine state

`TfidfVectorizer(max_features=1000, stop_words='english', min_df=2,
max_df=0.8, ngram_range=(1,2))` (src/ml/recommender.py:16-22).  The
vocabulary-building part of `fit` is exact discrete computation and is
modelled below; the learned idf weights are logarithms, so the fitted
`transform` function is abstracted as a parameter. -/

/-- A word character of sklearn's default token pattern `(?u)\b\w\w+\b`. -/
def isWordChar (c : Char) : Bool := c.isAlphanum || c = '_'

/-- Maximal runs of word characters of a character stream (`cur` is the
reversed run being accumulated). -/
def wordRunsAux : List Char → List Char → List (List Char)
  | cur, [] => if cur = [] then [] else [cur.reverse]
  | cur, c :: cs =>
    if isWordChar c then wordRunsAux (c :: cur) cs
    else if cur = [] then wordRunsAux [] cs else cur.reverse :: wordRunsAux [] cs

/-- sklearn tokenization: lowercase, then keep maximal runs of word
characters of length at least 2 (the token pattern `\w\w+`). -/
def tokenize (s : String) : List String :=
  ((wordRunsAux [] s.data).map fun r => String.mk (r.map Char.toLower)).filter
    fun t => 2 ≤ t.length

/-- Adjacent-pair bigrams joined by a space (sklearn `_word_ngrams` for
`ngram_range=(1, 2)`). -/
def bigrams : List String → List String
  | a :: b :: rest => (a ++ " " ++ b) :: bigrams (b :: rest)
  | _ => []

/-- The terms sklearn extracts from one document: tokens minus stop words,
plus bigrams of the remaining tokens. -/
def docTerms (stopWords : List String) (doc : String) : List String :=
  let toks := (tokenize doc).filter fun t => !stopWords.contains t
  toks ++ bigrams toks

/-- Number of documents of the analysed corpus containing term `t`. -/
def docFreq (docs : List (List String)) (t : String) : ℕ :=
  (docs.filter fun d => d.contains t).length

/-- Total number of occurrences of `t` across the corpus (the quantity
`max_features` selects on). -/
def termCount (docs : List (List String)) (t : String) : ℕ :=
  (docs.map fun d => d.count t).sum

/-- Key order for the `max_features` cap: corpus frequency descending, ties
broken alphabetically. -/
def countRel (docs : List (List String)) (t u : String) : Prop :=
  termCount docs u < termCount docs t ∨ (termCount docs t = termCount docs u ∧ t ≤ u)

instance (docs : List (List String)) : DecidableRel (countRel docs) := fun t u => by
  unfold countRel; infer_instance

/-- The per-document term lists the vectorizer analyses. -/
def analyzedDocs (stopWords : List String) (corpus : List String) : List (List String) :=
  corpus.map (docTerms stopWords)

/-- The candidate terms surviving the document-frequency pruning: in at least
2 documents (`min_df=2`) and in at most 80% of them (`max_df=0.8`). -/
def keptTerms (stopWords : List String) (corpus : List String) : List String :=
  (analyzedDocs stopWords corpus).flatten.dedup.filter fun t =>
    decide (2 ≤ docFreq (analyzedDocs stopWords corpus) t ∧
      (docFreq (analyzedDocs stopWords corpus) t : ℚ) ≤ (8 : ℚ)/10 * (corpus.length : ℚ))

/-- `TfidfVectorizer` vocabulary construction with the engine's settings:
document-frequency pruning, then at most 1000 terms kept by corpus frequency
(`max_features=1000`), and `get_feature_names_out` reports the vocabulary
alphabetically sorted.  `stopWords` stands for sklearn's built-in English
stop-word list (`stop_words='english'`), which lives inside sklearn, not in
this repository; every theorem quantifies over it. -/
def fitVocabulary (stopWords : List String) (corpus : List String) : List String :=
  List.insertionSort (fun t u => t ≤ u)
    (if (keptTerms stopWords corpus).length ≤ 1000 then keptTerms stopWords corpus
     else (List.insertionSort (countRel (analyzedDocs stopWords corpus))
        (keptTerms stopWords corpus)).take 1000)

/-- The error taxonomy of the engine: the `ValueError`s raised by `fit`
(empty corpus at src/ml/recommender.py:28-29; sklearn's own "no terms
remain"/"empty vocabulary" pruning failure) and by `get_recommendations`
before any successful `fit` (src/ml/recommender.py:87-88). -/
inductive RecError where
  | emptyCorpus
  | noTermsRemain
  | notFitted
  deriving DecidableEq, Repr

/-- Observable outcome of `TfidfVectorizer.fit`: the fitted vocabulary, or
the `ValueError` sklearn raises when no terms survive pruning. -/
def sklearnFit (stopWords : List String) (corpus : List String) :
    Except RecError (List String) :=
  if fitVocabulary stopWords corpus = [] then .error .noTermsRemain
  else .ok (fitVocabulary stopWords corpus)

/-- The mutable state of a `RecommenderEngine`: the `is_fitted` flag, the
`vocabulary` (`None` until fitted), and the fitted vectorizer's `transform`,
abstracted as a function from a text to its dense weight vector over the
vocabulary (the idf weights are logarithms, hence not representable
exactly; all ranking theorems hold for every value of this field). -/
structure Engine where
  isFitted : Bool
  vocabulary : Option (List String)
  transform : String → List ℚ

/-- `RecommenderEngine.__init__` (src/ml/recommender.py:14-24): unfitted, no
vocabulary.  The `transform` placeholder is never consulted by the guarded
code paths before a successful `fit`. -/
def Engine.init : Engine := ⟨false, none, fun _ => []⟩

/-- `RecommenderEngine.fit` (src/ml/recommender.py:26-34).  Python mutates
`self` and may raise; the model returns the post-call state paired with the
raised error, if any.  The empty-corpus check precedes every mutation, so on
that path the state is returned untouched.  `fittedTransform` stands for the
transform sklearn learns from this corpus. -/
def Engine.fit (e : Engine) (stopWords : List String)
    (fittedTransform : String → List ℚ) (corpus : List String) :
    Engine × Option RecError :=
  if corpus = [] then (e, some .emptyCorpus)
  else
    match sklearnFit stopWords corpus with
    | .error err => (e, some err)
    | .ok vocab => (⟨true, some vocab, fittedTransform⟩, none)

/-- C4: `fit` on an empty corpus raises the empty-corpus `ValueError` and
leaves the engine state — fitted flag, vocabulary and transform — exactly as
it was, whether the engine was fitted before or not. -/
theorem c4_fit_empty_corpus (e : Engine) (stopWords : List String)
    (fittedTransform : String → List ℚ) :
    (e.fit stopWords fittedTransform []).1 = e
    ∧ (e.fit stopWords fittedTransform []).2 = some RecError.emptyCorpus
    ∧ (e.fit stopWords fittedTransform []).1.isFitted = e.isFitted
    ∧ (e.fit stopWords fittedTransform []).1.vocabulary = e.vocabulary
    ∧ (e.fit stopWords fittedTransform []).1.transform = e.transform :=
  ⟨rfl, rfl, rfl, rfl, rfl⟩

/-! ### The spec's test scenario corpus (claim C8) -/

/-- The corpus of the spec's end-to-end scenario. -/
def c8Corpus : List String :=
  ["wireless bluetooth headphones gym bass",
   "noise cancelling earbuds office travel",
   "winter jacket fleece hiking waterproof"]

/-- Every term sklearn can extract from `doc`, whatever the stop-word set:
the tokens themselves and every space-joined pair of tokens. -/
def candidateTerms (doc : String) : List String :=
  tokenize doc ++ (tokenize doc).flatMap fun x => (tokenize doc).map fun y => x ++ " " ++ y

lemma mem_bigrams {l : List String} {b : String} (h : b ∈ bigrams l) :
    ∃ x ∈ l, ∃ y ∈ l, b = x ++ " " ++ y := by
  induction l with
  | nil => cases h
  | cons a rest ih =>
    cases rest with
    | nil => cases h
    | cons c rest' =>
      rcases List.mem_cons.1 h with h' | h'
      · exact ⟨a, by simp, c, by simp, h'⟩
      · obtain ⟨x, hx, y, hy, he⟩ := ih h'
        exact ⟨x, List.mem_cons_of_mem a hx, y, List.mem_cons_of_mem a hy, he⟩

lemma docTerms_subset_candidateTerms {sw : List String} {doc t : String}
    (h : t ∈ docTerms sw doc) : t ∈ candidateTerms doc := by
  unfold docTerms at h
  rcases List.mem_append.1 h with h' | h'
  · exact List.mem_append_left _ (List.mem_of_mem_filter h')
  · obtain ⟨x, hx, y, hy, he⟩ := mem_bigrams h'
    refine List.mem_append_right _ (List.mem_flatMap.2 ?_)
    exact ⟨x, List.mem_of_mem_filter hx,
      List.mem_map.2 ⟨y, List.mem_of_mem_filter hy, he.symm⟩⟩

lemma c8_disjoint_01 :
    ∀ t ∈ candidateTerms "wireless bluetooth headphones gym bass",
      t ∉ candidateTerms "noise cancelling earbuds office travel" := by decide

lemma c8_disjoint_02 :
    ∀ t ∈ candidateTerms "wireless bluetooth headphones gym bass",
      t ∉ candidateTerms "winter jacket fleece hiking waterproof" := by decide

lemma c8_disjoint_12 :
    ∀ t ∈ candidateTerms "noise cancelling earbuds office travel",
      t ∉ candidateTerms "winter jacket fleece hiking waterproof" := by decide

lemma c8_docFreq_le_one (sw : List String) (t : String) :
    docFreq (analyzedDocs sw c8Corpus) t ≤ 1 := by
  have m0 : (docTerms sw "wireless bluetooth headphones gym bass").contains t = true →
      t ∈ candidateTerms "wireless bluetooth headphones gym bass" :=
    fun h => docTerms_subset_candidateTerms (by simpa using h)
  have m1 : (docTerms sw "noise cancelling earbuds office travel").contains t = true →
      t ∈ candidateTerms "noise cancelling earbuds office travel" :=
    fun h => docTerms_subset_candidateTerms (by simpa using h)
  have m2 : (docTerms sw "winter jacket fleece hiking waterproof").contains t = true →
      t ∈ candidateTerms "winter jacket fleece hiking waterproof" :=
    fun h => docTerms_subset_candidateTerms (by simpa using h)
  show (List.filter _ [docTerms sw "wireless bluetooth headphones gym bass",
    docTerms sw "noise cancelling earbuds office travel",
    docTerms sw "winter jacket fleece hiking waterproof"]).length ≤ 1
  cases h0 : (docTerms sw "wireless bluetooth headphones gym bass").contains t <;>
    cases h1 : (docTerms sw "noise cancelling earbuds office travel").contains t <;>
      cases h2 : (docTerms sw "winter jacket fleece hiking waterproof").contains t <;>
        simp only [List.filter, h0, h1, h2, List.length] <;>
          first
            | exact Nat.le_refl 1
            | exact Nat.zero_le 1
            | exact absurd (m1 h1) (c8_disjoint_01 t (m0 h0))
            | exact absurd (m2 h2) (c8_disjoint_02 t (m0 h0))
            | exact absurd (m2 h2) (c8_disjoint_12 t (m1 h1))

lemma c8_keptTerms_nil (sw : List String) : keptTerms sw c8Corpus = [] := by
  unfold keptTerms
  apply List.filter_eq_nil_iff.mpr
  intro t _
  simp only [decide_eq_true_eq, not_and]
  intro h2
  exact absurd (Nat.le_trans h2 (c8_docFreq_le_one sw t)) (by decide)

lemma c8_fitVocabulary_nil (sw : List String) : fitVocabulary sw c8Corpus = [] := by
  unfold fitVocabulary
  rw [c8_keptTerms_nil sw]
  rfl

/-- C8 counterexample: on the scenario corpus, `fit` does not succeed — every
extracted term occurs in exactly one of the three documents, so the
`min_df=2` pruning empties the vocabulary and sklearn raises; the
recommendation step of the scenario is never reached.  (Instantiated at the
empty stop-word set; `c8_fit_raises_on_scenario_corpus` proves the same
outcome for every stop-word set, in particular sklearn's English list.) -/
theorem c8_counterexample :
    (Engine.init.fit [] (fun _ => []) c8Corpus).2 = some RecError.noTermsRemain
      ∧ (Engine.init.fit [] (fun _ => []) c8Corpus).2 ≠ none := by
  have h : Engine.init.fit [] (fun _ => []) c8Corpus
      = (Engine.init, some RecError.noTermsRemain) := by
    unfold Engine.fit sklearnFit
    rw [c8_fitVocabulary_nil []]
    rfl
  rw [h]
  exact ⟨rfl, by simp⟩

/-- C8 (amended): on the scenario corpus
`["wireless bluetooth headphones gym bass", "noise cancelling earbuds office
travel", "winter jacket fleece hiking waterproof"]`, `fit` raises (no term
appears in 2 or more documents, so `min_df=2` prunes the whole vocabulary)
and leaves the engine unchanged, for every stop-word set and learned
transform; the scenario's recommendation expectations are unreachable. -/
theorem c8_fit_raises_on_scenario_corpus (e : Engine) (sw : List String)
    (tr : String → List ℚ) :
    (e.fit sw tr c8Corpus).2 = some RecError.noTermsRemain
      ∧ (e.fit sw tr c8Corpus).1 = e := by
  have h : e.fit sw tr c8Corpus = (e, some RecError.noTermsRemain) := by
    unfold Engine.fit sklearnFit
    rw [c8_fitVocabulary_nil sw]
    rfl
  rw [h]
  exact ⟨rfl, rfl⟩

/-! ### Ranking -/

/-- Order on catalog indices: similarity descending, ties broken by ascending
index — the canonical (stable) model of `np.argsort(-similarities)`
(src/ml/recommender.py:109). -/
def argRel (scores : List ℚ) (i j : ℕ) : Prop :=
  scores.getD j 0 < scores.getD i 0 ∨ (scores.getD i 0 = scores.getD j 0 ∧ i ≤ j)

instance (scores : List ℚ) : DecidableRel (argRel scores) := fun i j => by
  unfold argRel; infer_instance

instance (scores : List ℚ) : IsTotal ℕ (argRel scores) := by
  constructor
  intro i j
  unfold argRel
  rcases lt_trichotomy (scores.getD i 0) (scores.getD j 0) with h | h | h
  · exact Or.inr (Or.inl h)
  · rcases Nat.le_total i j with hij | hij
    · exact Or.inl (Or.inr ⟨h, hij⟩)
    · exact Or.inr (Or.inr ⟨h.symm, hij⟩)
  · exact Or.inl (Or.inl h)

instance (scores : List ℚ) : IsTrans ℕ (argRel scores) := by
  constructor
  intro i j k h1 h2
  unfold argRel at *
  rcases h1 with h1 | ⟨e1, l1⟩ <;> rcases h2 with h2 | ⟨e2, l2⟩
  · exact Or.inl (h2.trans h1)
  · exact Or.inl (e2 ▸ h1)
  · exact Or.inl (e1 ▸ h2)
  · exact Or.inr ⟨e1.trans e2, l1.trans l2⟩

instance (scores : List ℚ) : IsAntisymm ℕ (argRel scores) := by
  constructor
  intro i j h1 h2
  unfold argRel at *
  rcases h1 with h1 | ⟨e1, l1⟩ <;> rcases h2 with h2 | ⟨e2, l2⟩
  · exact absurd h1 (lt_asymm h2)
  · exact absurd e2 h1.ne
  · exact absurd e1 h2.ne
  · exact Nat.le_antisymm l1 l2

/-- `np.argsort(-similarities)` (src/ml/recommender.py:109): the indices
`0 .. len(similarities)-1` sorted by similarity descending, ties by input
order. -/
def argsortDesc (scores : List ℚ) : List ℕ :=
  List.insertionSort (argRel scores) (List.range scores.length)

/-- One entry of the list returned by `get_recommendations`
(src/ml/recommender.py:115-120). -/
structure Recommendation where
  product_index : ℕ
  similarity_score : ℚ
  match_percentage : ℚ
  product_context : String
  deriving DecidableEq, Repr

/-- Python's `round` to an integer: nearest, ties to even. -/
def pyRoundInt (q : ℚ) : ℤ :=
  if q - ⌊q⌋ < (1 : ℚ)/2 then ⌊q⌋
  else if (1 : ℚ)/2 < q - ⌊q⌋ then ⌊q⌋ + 1
  else if 2 ∣ ⌊q⌋ then ⌊q⌋ else ⌊q⌋ + 1

/-- Python's `round(x, 1)` on exact rationals (the source rounds binary
floats). -/
def pyRound1 (q : ℚ) : ℚ := (pyRoundInt (q * 10) : ℚ) / 10

/-- What `np.argsort(-similarities)` guarantees about its result: a
permutation of the catalog indices `0 .. len(similarities)-1` arranged in
non-increasing similarity order.  numpy's default `kind='quicksort'`
(introsort) is documented *unstable*, so the order inside a group of equal
scores is unspecified: any list satisfying this predicate is an admissible
result of the call at src/ml/recommender.py:109, and theorems quantifying
over all such lists cover every behavior the program may exhibit. -/
def IsArgsortDesc (scores : List ℚ) (order : List ℕ) : Prop :=
  List.Perm order (List.range scores.length)
  ∧ order.Pairwise (fun i j => scores.getD j 0 ≤ scores.getD i 0)

/-- Steps 5-6 of `get_recommendations` (src/ml/recommender.py:108-120), for an
arbitrary argsort result `order`: take the first `top_n` indices of `order`,
keep those whose similarity is strictly above the 0.1 relevance threshold,
and build the result records. -/
def rankFromOrder (similarities : List ℚ) (productContexts : List String)
    (topN : ℕ) (order : List ℕ) : List Recommendation :=
  (order.take topN).filterMap fun idx =>
    if (1 : ℚ)/10 < similarities.getD idx 0 then
      some { product_index := idx,
             similarity_score := similarities.getD idx 0,
             match_percentage := pyRound1 (similarities.getD idx 0 * 100),
             product_context := productContexts.getD idx "" }
    else none

/-- The ranking stage instantiated with the canonical admissible argsort
result `argsortDesc` (input-order-stable ties). -/
def rankFromScores (similarities : List ℚ) (productContexts : List String)
    (topN : ℕ) : List Recommendation :=
  rankFromOrder similarities productContexts topN (argsortDesc similarities)

/-- `RecommenderEngine.get_recommendations` (src/ml/recommender.py:75-123)
with the result of `np.argsort` supplied through `argsort`: not-fitted guard,
empty-behavior and empty-profile soft returns, then the similarity ranking.
`cosineSim` abstracts `sklearn.metrics.pairwise.cosine_similarity` (floating
point, square roots), and `argsort` the underspecified `np.argsort`; the
theorems below hold for all their values (for `argsort`, all values
satisfying `IsArgsortDesc`). -/
def Engine.getRecommendationsWith (e : Engine) (cosineSim : List ℚ → List ℚ → ℚ)
    (argsort : List ℚ → List ℕ) (userBehaviors : List Behavior)
    (productContexts : List String) (topN : ℕ) : Except RecError (List Recommendation) :=
  if e.isFitted = false then .error .notFitted
  else if userBehaviors = [] then .ok []
  else if buildInterestProfile userBehaviors = "" then .ok []
  else .ok (rankFromOrder
      (productContexts.map fun p =>
        cosineSim (e.transform (buildInterestProfile userBehaviors)) (e.transform p))
      productContexts topN
      (argsort (productContexts.map fun p =>
        cosineSim (e.transform (buildInterestProfile userBehaviors)) (e.transform p))))

/-- `RecommenderEngine.get_recommendations` with the canonical admissible
argsort instance (claims about error paths and about properties that hold
for every admissible tie order do not depend on this choice). -/
def Engine.getRecommendations (e : Engine) (cosineSim : List ℚ → List ℚ → ℚ)
    (userBehaviors : List Behavior) (productContexts : List String)
    (topN : ℕ) : Except RecError (List Recommendation) :=
  e.getRecommendationsWith cosineSim argsortDesc userBehaviors productContexts topN

/-- C3: `get_recommendations` raises the not-fitted `ValueError` exactly when
the engine's fitted flag is unset; a fitted engine returns the empty list
(not an error) on an empty behavior list or an empty interest profile.  The
flag starts unset, is set by a successful `fit`, and a failed `fit` leaves
the engine (hence the flag) unchanged, so "unfitted" coincides with "no
successful fit has happened yet". -/
theorem c3_not_fitted_error_iff (e : Engine) (cosineSim : List ℚ → List ℚ → ℚ)
    (behaviors : List Behavior) (products : List String) (topN : ℕ) :
    (e.getRecommendations cosineSim behaviors products topN
        = .error .notFitted ↔ e.isFitted = false)
    ∧ (e.isFitted = true → behaviors = [] →
        e.getRecommendations cosineSim behaviors products topN = .ok [])
    ∧ (e.isFitted = true → buildInterestProfile behaviors = "" →
        e.getRecommendations cosineSim behaviors products topN = .ok [])
    ∧ Engine.init.isFitted = false
    ∧ (∀ (sw : List String) (tr : String → List ℚ) (corpus : List String),
        ((e.fit sw tr corpus).2 = none → (e.fit sw tr corpus).1.isFitted = true)
        ∧ ((e.fit sw tr corpus).2 ≠ none → (e.fit sw tr corpus).1 = e)) := by
  refine ⟨⟨?_, ?_⟩, ?_, ?_, rfl, ?_⟩
  · intro h
    cases hf : e.isFitted with
    | false => rfl
    | true =>
      exfalso
      unfold Engine.getRecommendations Engine.getRecommendationsWith at h
      rw [hf] at h
      simp only [Bool.true_eq_false, if_false] at h
      split at h
      · simp at h
      · split at h
        · simp at h
        · simp at h
  · intro h
    unfold Engine.getRecommendations Engine.getRecommendationsWith
    simp [h]
  · intro h1 h2
    unfold Engine.getRecommendations Engine.getRecommendationsWith
    simp [h1, h2]
  · intro h1 h2
    unfold Engine.getRecommendations Engine.getRecommendationsWith
    by_cases hb : behaviors = [] <;> simp [h1, h2, hb]
  · intro sw tr corpus
    unfold Engine.fit
    split
    · exact ⟨fun h => by simp at h, fun _ => rfl⟩
    · cases hs : sklearnFit sw corpus with
      | error err => exact ⟨fun h => by simp at h, fun _ => rfl⟩
      | ok vocab => exact ⟨fun _ => rfl, fun h => by simp at h⟩

/-- C3 witness: a concrete fitted engine with an empty behavior list returns
the empty recommendation list. -/
theorem c3_not_fitted_error_iff_witness :
    (⟨true, some [], fun _ => []⟩ : Engine).getRecommendations
      (fun _ _ => 0) [] ["p"] 5 = .ok [] :=
  (c3_not_fitted_error_iff ⟨true, some [], fun _ => []⟩
    (fun _ _ => 0) [] ["p"] 5).2.1 rfl rfl

lemma sorted_argsortDesc (scores : List ℚ) :
    List.Sorted (argRel scores) (argsortDesc scores) :=
  List.sorted_insertionSort _ _

lemma perm_argsortDesc (scores : List ℚ) :
    List.Perm (argsortDesc scores) (List.range scores.length) :=
  List.perm_insertionSort _ _

lemma nodup_argsortDesc (scores : List ℚ) : (argsortDesc scores).Nodup :=
  (perm_argsortDesc scores).nodup_iff.2 (List.nodup_range _)

lemma mem_argsortDesc {scores : List ℚ} {i : ℕ} :
    i ∈ argsortDesc scores ↔ i < scores.length := by
  rw [(perm_argsortDesc scores).mem_iff, List.mem_range]

lemma argsortDesc_admissible (scores : List ℚ) :
    IsArgsortDesc scores (argsortDesc scores) :=
  ⟨perm_argsortDesc scores,
    (sorted_argsortDesc scores).imp fun h => by
      rcases h with h | ⟨h, _⟩
      · exact le_of_lt h
      · exact le_of_eq h.symm⟩

/-- Similarity non-increasing along the result: what "sorted by similarity
descending" means without a tie-break guarantee. -/
def scoreDescRel (r s : Recommendation) : Prop :=
  s.similarity_score ≤ r.similarity_score

instance : DecidableRel scoreDescRel := fun r s => by
  unfold scoreDescRel; infer_instance

/-- The ordering asserted by the original claim C2: similarity strictly
descending, ties in ascending `product_index` order. -/
def tieBreakRel (r s : Recommendation) : Prop :=
  s.similarity_score < r.similarity_score ∨
    (r.similarity_score = s.similarity_score ∧ r.product_index < s.product_index)

instance : DecidableRel tieBreakRel := fun r s => by
  unfold tieBreakRel; infer_instance

lemma rankFromOrder_mem {sims : List ℚ} {products : List String} {n : ℕ}
    {order : List ℕ} {r : Recommendation} (h : r ∈ rankFromOrder sims products n order) :
    r.product_index ∈ order ∧ (1 : ℚ)/10 < r.similarity_score
    ∧ r.similarity_score = sims.getD r.product_index 0
    ∧ r.match_percentage = pyRound1 (r.similarity_score * 100) := by
  unfold rankFromOrder at h
  obtain ⟨idx, hidx, hf⟩ := List.mem_filterMap.1 h
  by_cases hc : (1 : ℚ)/10 < sims.getD idx 0
  · rw [if_pos hc] at hf
    cases hf
    exact ⟨List.mem_of_mem_take hidx, hc, rfl, rfl⟩
  · rw [if_neg hc] at hf
    cases hf

lemma rankFromScores_mem {sims : List ℚ} {products : List String} {n : ℕ}
    {r : Recommendation} (h : r ∈ rankFromScores sims products n) :
    r.product_index < sims.length ∧ (1 : ℚ)/10 < r.similarity_score
    ∧ r.similarity_score = sims.getD r.product_index 0
    ∧ r.match_percentage = pyRound1 (r.similarity_score * 100) := by
  have h' := rankFromOrder_mem h
  exact ⟨mem_argsortDesc.1 h'.1, h'.2⟩

lemma rankFromOrder_sorted (sims : List ℚ) (products : List String) (n : ℕ)
    {order : List ℕ} (h : order.Pairwise fun i j => sims.getD j 0 ≤ sims.getD i 0) :
    (rankFromOrder sims products n order).Pairwise scoreDescRel := by
  unfold rankFromOrder
  refine (h.sublist (List.take_sublist n order)).filterMap _ ?_
  intro i j hij r hr s hs
  by_cases hci : (1 : ℚ)/10 < sims.getD i 0
  · rw [if_pos hci, Option.mem_some_iff] at hr
    by_cases hcj : (1 : ℚ)/10 < sims.getD j 0
    · rw [if_pos hcj, Option.mem_some_iff] at hs
      subst hr
      subst hs
      exact hij
    · rw [if_neg hcj] at hs
      cases hs
  · rw [if_neg hci] at hr
    cases hr

lemma rankFromScores_pairwise (sims : List ℚ) (products : List String) (n : ℕ) :
    (rankFromScores sims products n).Pairwise (fun r s =>
      (s.similarity_score < r.similarity_score ∨
        (r.similarity_score = s.similarity_score ∧ r.product_index < s.product_index))
      ∧ r.product_index ≠ s.product_index) := by
  unfold rankFromScores rankFromOrder
  have h2 : ((argsortDesc sims).take n).Pairwise (fun i j => argRel sims i j ∧ i ≠ j) :=
    ((sorted_argsortDesc sims).sublist (List.take_sublist n _)).and
      ((nodup_argsortDesc sims).sublist (List.take_sublist n _))
  refine h2.filterMap _ ?_
  rintro i j ⟨hrel, hne⟩ r hr s hs
  by_cases hci : (1 : ℚ)/10 < sims.getD i 0
  · rw [if_pos hci, Option.mem_some_iff] at hr
    by_cases hcj : (1 : ℚ)/10 < sims.getD j 0
    · rw [if_pos hcj, Option.mem_some_iff] at hs
      subst hr
      subst hs
      rcases hrel with hlt | ⟨heq, hle⟩
      · exact ⟨Or.inl hlt, hne⟩
      · exact ⟨Or.inr ⟨heq, Nat.lt_of_le_of_ne hle hne⟩, hne⟩
    · rw [if_neg hcj] at hs
      cases hs
  · rw [if_neg hci] at hr
    cases hr

lemma rankFromOrder_length (sims : List ℚ) (products : List String) (n : ℕ)
    (order : List ℕ) : (rankFromOrder sims products n order).length ≤ n :=
  le_trans (List.length_filterMap_le _ _) (List.length_take_le _ _)

/-- C2 counterexample: the tie-break half of the claim is not guaranteed by
the program.  `np.argsort`'s default quicksort is documented unstable, so on
the tied similarity list `[1/2, 1/2]` the order `[1, 0]` is an admissible
argsort result (a permutation of the indices in non-increasing score order);
under it `get_recommendations` returns the two tied entries with
`product_index` 1 before 0, violating "equal-score items appear in ascending
product_index order". -/
theorem c2_counterexample :
    IsArgsortDesc [mkRat 1 2, mkRat 1 2] [1, 0]
    ∧ (⟨true, some [], fun _ => [1]⟩ : Engine).getRecommendationsWith
        (fun _ _ => mkRat 1 2) (fun _ => [1, 0]) [⟨"search", "q", ""⟩] ["a", "b"] 5
        = .ok [⟨1, mkRat 1 2, 50, "b"⟩, ⟨0, mkRat 1 2, 50, "a"⟩]
    ∧ ¬ List.Pairwise tieBreakRel
        [(⟨1, mkRat 1 2, 50, "b"⟩ : Recommendation), ⟨0, mkRat 1 2, 50, "a"⟩] := by
  refine ⟨⟨?_, by decide⟩, by rfl, by decide⟩
  exact List.Perm.swap 0 1 []

/-- C2 (amended): for every admissible behavior of `np.argsort` (any
permutation of the catalog indices in non-increasing similarity order — the
default quicksort is unstable, so the order within a group of equal scores is
unspecified), every successful `get_recommendations` result is sorted by
similarity descending (with no guarantee on the relative order of equal-score
entries), contains only entries with similarity strictly above the 0.1
threshold, has at most `topN` entries, and carries `round(score * 100, 1)` as
each entry's match percentage.  The similarity values are universally
quantified through `cosineSim` and `transform`, so this covers the concrete
floating-point kernel. -/
theorem c2_admissible_ranking_properties (e : Engine)
    (cosineSim : List ℚ → List ℚ → ℚ) (argsort : List ℚ → List ℕ)
    (behaviors : List Behavior) (products : List String) (topN : ℕ)
    (recs : List Recommendation)
    (hadm : ∀ scores : List ℚ, IsArgsortDesc scores (argsort scores))
    (h : e.getRecommendationsWith cosineSim argsort behaviors products topN = .ok recs) :
    recs.Pairwise scoreDescRel
    ∧ (∀ r ∈ recs, (1 : ℚ)/10 < r.similarity_score)
    ∧ recs.length ≤ topN
    ∧ (∀ r ∈ recs, r.match_percentage = pyRound1 (r.similarity_score * 100)) := by
  unfold Engine.getRecommendationsWith at h
  split at h
  · simp at h
  · split at h
    · injection h with h'
      subst h'
      simp
    · split at h
      · injection h with h'
        subst h'
        simp
      · injection h with h'
        subst h'
        exact ⟨rankFromOrder_sorted _ _ _ (hadm _).2,
          fun r hr => (rankFromOrder_mem hr).2.1,
          rankFromOrder_length _ _ _ _,
          fun r hr => (rankFromOrder_mem hr).2.2.2⟩

/-- C2 amended witness: a concrete fitted engine, ranked through the
canonical admissible argsort, returns at most `topN = 5` entries. -/
theorem c2_admissible_ranking_witness :
    ([(⟨0, mkRat 1 2, 50, "a"⟩ : Recommendation), ⟨1, mkRat 1 2, 50, "b"⟩].length ≤ 5) :=
  (c2_admissible_ranking_properties ⟨true, some [], fun _ => [1]⟩
    (fun _ _ => mkRat 1 2) argsortDesc [⟨"search", "q", ""⟩] ["a", "b"] 5
    [⟨0, mkRat 1 2, 50, "a"⟩, ⟨1, mkRat 1 2, 50, "b"⟩]
    argsortDesc_admissible (by rfl)).2.2.1

/-- C9: every entry of a successful `get_recommendations` result carries a
`product_index` that is a valid index into `product_contexts`, and distinct
entries carry distinct indices, so no catalog item appears twice. -/
theorem c9_indices_valid_and_distinct (e : Engine)
    (cosineSim : List ℚ → List ℚ → ℚ) (behaviors : List Behavior)
    (products : List String) (topN : ℕ) (recs : List Recommendation)
    (h : e.getRecommendations cosineSim behaviors products topN = .ok recs) :
    (∀ r ∈ recs, r.product_index < products.length)
    ∧ recs.Pairwise (fun r s => r.product_index ≠ s.product_index) := by
  unfold Engine.getRecommendations Engine.getRecommendationsWith at h
  split at h
  · simp at h
  · split at h
    · injection h with h'
      subst h'
      simp
    · split at h
      · injection h with h'
        subst h'
        simp
      · injection h with h'
        subst h'
        constructor
        · intro r hr
          have := (rankFromScores_mem hr).1
          rwa [List.length_map] at this
        · exact (rankFromScores_pairwise _ _ _).imp fun hp => hp.2

/-- C9 witness: the concrete single-entry result indexes into the two-item
catalog. -/
theorem c9_indices_witness :
    ((⟨0, mkRat 1 2, 50, "a"⟩ : Recommendation)).product_index < (["a", "b"] : List String).length :=
  (c9_indices_valid_and_distinct ⟨true, some [], fun _ => [1]⟩
    (fun _ _ => mkRat 1 2) [⟨"search", "q", ""⟩] ["a", "b"] 1
    [⟨0, mkRat 1 2, 50, "a"⟩] (by rfl)).1 ⟨0, mkRat 1 2, 50, "a"⟩ (by simp)

/-! ### Explanation -/

/-- The sort key of `explain_recommendation`'s matches: the product of the
user-side and product-side weights (`x[1] * x[2]`). -/
def matchKey (m : ℕ × String × ℚ × ℚ) : ℚ := m.2.2.1 * m.2.2.2

/-- Python's stable `matches.sort(key=lambda x: x[1] * x[2], reverse=True)`
(src/ml/recommender.py:141): weight product descending, ties keeping the
original (ascending vocabulary position) order. -/
def matchRel (a b : ℕ × String × ℚ × ℚ) : Prop :=
  matchKey b < matchKey a ∨ (matchKey a = matchKey b ∧ a.1 ≤ b.1)

instance : DecidableRel matchRel := fun a b => by
  unfold matchRel; infer_instance

instance : IsTotal (ℕ × String × ℚ × ℚ) matchRel := by
  constructor
  intro a b
  unfold matchRel
  rcases lt_trichotomy (matchKey a) (matchKey b) with h | h | h
  · exact Or.inr (Or.inl h)
  · rcases Nat.le_total a.1 b.1 with hab | hab
    · exact Or.inl (Or.inr ⟨h, hab⟩)
    · exact Or.inr (Or.inr ⟨h.symm, hab⟩)
  · exact Or.inl (Or.inl h)

instance : IsTrans (ℕ × String × ℚ × ℚ) matchRel := by
  constructor
  intro a b c h1 h2
  unfold matchRel at *
  rcases h1 with h1 | ⟨e1, l1⟩ <;> rcases h2 with h2 | ⟨e2, l2⟩
  · exact Or.inl (h2.trans h1)
  · exact Or.inl (e2 ▸ h1)
  · exact Or.inl (e1 ▸ h2)
  · exact Or.inr ⟨e1.trans e2, l1.trans l2⟩

/-- The `matches` list built by the loop at src/ml/recommender.py:136-139:
vocabulary positions where both vectors exceed 0.1, recorded with the term
and both weights (the position is kept to express the stability of the
subsequent sort). -/
def explainCandidates (vocab : List String) (userScores productScores : List ℚ) :
    List (ℕ × String × ℚ × ℚ) :=
  (userScores.zip productScores).enum.filterMap fun m =>
    if (1 : ℚ)/10 < m.2.1 ∧ (1 : ℚ)/10 < m.2.2 then
      some (m.1, vocab.getD m.1 "", m.2.1, m.2.2)
    else none

/-- `explain_recommendation`'s `top_matches` (src/ml/recommender.py:141-142):
candidates sorted by weight product descending, truncated to `topWords`. -/
def Engine.explainMatches (e : Engine) (userBehaviors : List Behavior)
    (productContext : String) (topWords : ℕ) : List (ℕ × String × ℚ × ℚ) :=
  (List.insertionSort matchRel
    (explainCandidates (e.vocabulary.getD [])
      (e.transform (buildInterestProfile userBehaviors))
      (e.transform productContext))).take topWords

/-- The string `explain_recommendation` returns (src/ml/recommender.py:144). -/
def Engine.explainRecommendation (e : Engine) (userBehaviors : List Behavior)
    (productContext : String) (topWords : ℕ) : String :=
  "Matches on: " ++ pyJoin ", "
    ((e.explainMatches userBehaviors productContext topWords).map fun m => m.2.1)

lemma enumFrom_zip_eq :
    ∀ (k : ℕ) (us ps : List ℚ), List.enumFrom k (us.zip ps)
      = (List.range (min us.length ps.length)).map
          fun i => (k + i, us.getD i 0, ps.getD i 0) := by
  intro k us
  induction us generalizing k with
  | nil => intro ps; simp
  | cons u us' ih =>
    intro ps
    cases ps with
    | nil => simp
    | cons p ps' =>
      rw [List.zip_cons_cons, List.enumFrom_cons, ih (k + 1) ps']
      have hmin : (u :: us').length ⊓ (p :: ps').length = us'.length ⊓ ps'.length + 1 := by
        simp [Nat.succ_min_succ]
      rw [hmin, List.range_succ_eq_map, List.map_cons, List.map_map]
      refine congrArg₂ _ (by simp) ?_
      apply List.map_congr_left
      intro i _
      show (k + 1 + i, us'.getD i 0, ps'.getD i 0)
      = (k + (i + 1), (u :: us').getD (i + 1) 0, (p :: ps').getD (i + 1) 0)
      simp [Nat.add_assoc, Nat.add_comm 1 i]

lemma explainCandidates_eq (vocab : List String) (us ps : List ℚ) :
    explainCandidates vocab us ps
      = (List.range (min us.length ps.length)).filterMap fun i =>
          if (1 : ℚ)/10 < us.getD i 0 ∧ (1 : ℚ)/10 < ps.getD i 0 then
            some (i, vocab.getD i "", us.getD i 0, ps.getD i 0)
          else none := by
  unfold explainCandidates
  show List.filterMap _ (List.enumFrom 0 (us.zip ps)) = _
  rw [enumFrom_zip_eq 0 us ps, List.filterMap_map]
  simp [Function.comp_def]

/-- C5: on a fitted engine, the explanation's candidate set is exactly the
vocabulary positions whose weight exceeds 0.1 in both the embedded profile
vector and the embedded item vector; the returned matches are ordered by the
product of the two weights descending, at most `topWords` of them are
returned, and when no position clears the threshold in both vectors the
result is empty (not an error). -/
theorem c5_explain_selection (e : Engine) (behaviors : List Behavior)
    (productContext : String) (topWords : ℕ) (hf : e.isFitted = true) :
    (explainCandidates (e.vocabulary.getD [])
        (e.transform (buildInterestProfile behaviors)) (e.transform productContext)
      = (List.range (min (e.transform (buildInterestProfile behaviors)).length
            (e.transform productContext).length)).filterMap fun i =>
          if (1 : ℚ)/10 < (e.transform (buildInterestProfile behaviors)).getD i 0
              ∧ (1 : ℚ)/10 < (e.transform productContext).getD i 0 then
            some (i, (e.vocabulary.getD []).getD i "",
              (e.transform (buildInterestProfile behaviors)).getD i 0,
              (e.transform productContext).getD i 0)
          else none)
    ∧ (e.explainMatches behaviors productContext topWords).Pairwise
        (fun a b => matchKey b ≤ matchKey a)
    ∧ (e.explainMatches behaviors productContext topWords).length ≤ topWords
    ∧ ((∀ i : ℕ, ¬((1 : ℚ)/10 < (e.transform (buildInterestProfile behaviors)).getD i 0
          ∧ (1 : ℚ)/10 < (e.transform productContext).getD i 0)) →
        e.explainMatches behaviors productContext topWords = []) := by
  refine ⟨explainCandidates_eq _ _ _, ?_, ?_, ?_⟩
  · unfold Engine.explainMatches
    refine List.Pairwise.sublist (List.take_sublist _ _) ?_
    refine (List.sorted_insertionSort matchRel _).imp ?_
    intro a b hab
    rcases hab with h | ⟨h, _⟩
    · exact le_of_lt h
    · exact le_of_eq h.symm
  · exact le_trans (List.length_take_le _ _) (le_refl _)
  · intro h
    have hc : explainCandidates (e.vocabulary.getD [])
        (e.transform (buildInterestProfile behaviors)) (e.transform productContext) = [] := by
      rw [explainCandidates_eq]
      apply List.filterMap_eq_nil_iff.mpr
      intro i _
      rw [if_neg (h i)]
    unfold Engine.explainMatches
    rw [hc]
    simp

/-- C5 witness: a concrete fitted engine whose abstract transform gives both
vectors weight 1/2 everywhere returns at most 5 matched terms. -/
theorem c5_explain_selection_witness :
    ((⟨true, some ["alpha", "beta"],
        fun s => if s = "" then [0, 0] else [mkRat 1 2, mkRat 1 2]⟩ : Engine).explainMatches
      [⟨"search", "alpha", ""⟩] "beta" 5).length ≤ 5 :=
  (c5_explain_selection ⟨true, some ["alpha", "beta"],
      fun s => if s = "" then [0, 0] else [mkRat 1 2, mkRat 1 2]⟩
    [⟨"search", "alpha", ""⟩] "beta" 5 rfl).2.2.1

/-! ### The specified ranking pipeline (claim C10) -/

/-- Modelled from the spec's words: first discard the items whose similarity
is at or below the 0.1 threshold, then sort the survivors by similarity
descending (ties by catalog input order) and truncate to `topN`. -/
def specSelectedIndices (scores : List ℚ) (topN : ℕ) : List ℕ :=
  (List.insertionSort (argRel scores)
    ((List.range scores.length).filter
      fun i => decide ((1 : ℚ)/10 < scores.getD i 0))).take topN

lemma map_index_rankFromOrder (sims : List ℚ) (products : List String) (n : ℕ)
    (order : List ℕ) :
    (rankFromOrder sims products n order).map (fun r => r.product_index)
      = (order.take n).filter fun i => decide ((1 : ℚ)/10 < sims.getD i 0) := by
  unfold rankFromOrder
  induction order.take n with
  | nil => rfl
  | cons x xs ih =>
    by_cases hx : (1 : ℚ)/10 < sims.getD x 0
    · rw [List.filterMap_cons, if_pos hx, List.filter_cons_of_pos (by simpa using hx),
        List.map_cons, ih]
    · rw [List.filterMap_cons, if_neg hx, List.filter_cons_of_neg (by simpa using hx), ih]

lemma filter_argsortDesc (scores : List ℚ) (p : ℕ → Bool) :
    (argsortDesc scores).filter p
      = List.insertionSort (argRel scores) ((List.range scores.length).filter p) :=
  List.eq_of_perm_of_sorted
    (((perm_argsortDesc scores).filter p).trans (List.perm_insertionSort _ _).symm)
    ((sorted_argsortDesc scores).filter p)
    (List.sorted_insertionSort _ _)

lemma take_filter_of_closed {p : ℕ → Bool} :
    ∀ l : List ℕ, l.Pairwise (fun a b => p b = true → p a = true) →
      ∀ n : ℕ, (l.take n).filter p = (l.filter p).take n := by
  intro l
  induction l with
  | nil => intro _ n; simp
  | cons x xs ih =>
    intro hp n
    rcases List.pairwise_cons.1 hp with ⟨hx, hxs⟩
    cases n with
    | zero => simp
    | succ m =>
      rw [List.take_succ_cons]
      by_cases hpx : p x = true
      · rw [List.filter_cons_of_pos hpx, List.filter_cons_of_pos hpx,
          List.take_succ_cons, ih hxs m]
      · have hnil : xs.filter p = [] :=
          List.filter_eq_nil_iff.mpr fun b hb hpb => hpx (hx b hb hpb)
        have hnil' : (xs.take m).filter p = [] :=
          List.filter_eq_nil_iff.mpr fun b hb hpb =>
            (List.filter_eq_nil_iff.mp hnil) b (List.mem_of_mem_take hb) hpb
        rw [List.filter_cons_of_neg (by simpa using hpx),
          List.filter_cons_of_neg (by simpa using hpx), hnil, hnil']
        simp

/-- C10 counterexample: the set equality of the two pipelines is not
guaranteed by the program when a tie group straddles the `topN` cut.  On the
tied scores `[1/2, 1/2]` with `topN = 1`, the order `[1, 0]` is an admissible
result of numpy's unstable argsort; the code's take-then-filter pipeline run
on it selects item 1, while the specified pipeline — discard sub-threshold
items, stable descending sort, truncate — selects item 0, so the selected
sets differ. -/
theorem c10_counterexample :
    IsArgsortDesc [mkRat 1 2, mkRat 1 2] [1, 0]
    ∧ (rankFromOrder [mkRat 1 2, mkRat 1 2] ["a", "b"] 1 [1, 0]).map
        (fun r => r.product_index) = [1]
    ∧ specSelectedIndices [mkRat 1 2, mkRat 1 2] 1 = [0]
    ∧ (1 : ℕ) ∉ specSelectedIndices [mkRat 1 2, mkRat 1 2] 1 := by
  refine ⟨⟨?_, by decide⟩, by rfl, by rfl, by decide⟩
  exact List.Perm.swap 0 1 []

/-- C10 (amended): for every assignment of similarity scores and every
admissible result of `np.argsort` (a permutation of the indices in
non-increasing score order), the code's pipeline — take the first `topN`
indices of that order, then discard those at or below the 0.1 threshold —
selects exactly the items obtained by first discarding the sub-threshold
indices from that same order and then truncating to `topN`; in particular,
when the argsort result is the input-order-stable descending sort, the
code's pipeline coincides with the specified stable filter-then-truncate
pipeline.  (An unstable tie order straddling the `topN` cut can still make
the code's selected set differ from the specified stable pipeline's set, as
the counterexample shows.) -/
theorem c10_filter_take_commute_per_order (scores : List ℚ)
    (products : List String) (topN : ℕ) (order : List ℕ)
    (h : IsArgsortDesc scores order) :
    (rankFromOrder scores products topN order).map (fun r => r.product_index)
      = (order.filter fun i => decide ((1 : ℚ)/10 < scores.getD i 0)).take topN
    ∧ (order = argsortDesc scores →
        (rankFromOrder scores products topN order).map (fun r => r.product_index)
          = specSelectedIndices scores topN) := by
  constructor
  · rw [map_index_rankFromOrder]
    refine take_filter_of_closed _ ?_ topN
    refine h.2.imp ?_
    intro i j hij hpj
    exact decide_eq_true (lt_of_lt_of_le (of_decide_eq_true hpj) hij)
  · intro he
    subst he
    rw [map_index_rankFromOrder]
    unfold specSelectedIndices
    rw [← filter_argsortDesc]
    refine take_filter_of_closed _ ?_ topN
    refine (sorted_argsortDesc scores).imp ?_
    intro i j hij hpj
    rcases hij with h' | ⟨h', _⟩
    · exact decide_eq_true (lt_trans (of_decide_eq_true hpj) h')
    · exact decide_eq_true (h' ▸ of_decide_eq_true hpj)

/-- C10 amended witness: the commutation instantiated at the admissible tied
order `[1, 0]` with `topN = 1`. -/
theorem c10_filter_take_commute_witness :
    (rankFromOrder [mkRat 1 2, mkRat 1 2] ["a", "b"] 1 [1, 0]).map
        (fun r => r.product_index)
      = (([1, 0] : List ℕ).filter
          fun i => decide ((1 : ℚ)/10 < ([mkRat 1 2, mkRat 1 2] : List ℚ).getD i 0)).take 1 :=
  (c10_filter_take_commute_per_order [mkRat 1 2, mkRat 1 2] ["a", "b"] 1 [1, 0]
    ⟨List.Perm.swap 0 1 [], by decide⟩).1

end EcommerceAI
